import Mathlib

/-!
Shallow embedding of the voice_link_backend authentication core
(usecase/user_usecase.go, domain/model/user.go,
infrastructure/persistence/user_repository.go, interface/middleware/auth.go),
with theorems checking the specification's claims about it.

Go's `time.Now()` is passed as an explicit `Time` parameter, the random
reset-token draw of `crypto/rand` as an explicit `String` parameter, and the
`JWT_SECRET` environment value as an explicit `String` parameter.  The mutable
database is explicit state `σ` threaded through every repository call.
-/

namespace VoiceLink

/-- Unix-time instant in seconds; `time.Now()` becomes an explicit parameter. -/
abbrev Time := Int

/-- domain/model: the persisted `User` record.  The store-managed
`CreatedAt`/`UpdatedAt` timestamps are not touched by any logic under
verification and are omitted. -/
structure User where
  ID : Nat
  Name : String
  Email : String
  Password : String
  PasswordResetToken : Option String
  PasswordResetExpires : Option Time
  deriving DecidableEq, Repr

/-- gorm's `ErrRecordNotFound` message, returned by the `First`-based lookups. -/
def gormErrRecordNotFound : String := "record not found"

/-- domain/model: the `UserRepository` interface.  Mutating operations return
the new store state; an `Except.error` leaves the caller's state unchanged. -/
structure UserRepository (σ : Type) where
  Create : User → σ → Except String (User × σ)
  FindByID : Nat → σ → Except String User
  FindByEmail : String → σ → Except String User
  FindByPasswordResetToken : String → σ → Except String User
  Update : User → σ → Except String σ
  Delete : Nat → σ → Except String σ

/-- `bcrypt.GenerateFromPassword`, modelled functionally by an injective tag of
the plaintext: the salted hash collapses to its verification contract, namely
that `CompareHashAndPassword` succeeds exactly on the original plaintext.
With `bcrypt.DefaultCost` the Go call cannot fail, so the model is total. -/
def bcryptHash (password : String) : String := "$2a$10$" ++ password

/-- `bcrypt.CompareHashAndPassword` as a Bool: true iff the hash record was
produced from this plaintext. -/
def compareHashAndPassword (hashed password : String) : Bool :=
  hashed == bcryptHash password

/-- JWT signing algorithms relevant to the middleware's keyfunc check.
`NoneAlg` is the unsigned "none" algorithm; `RS256` stands for any
non-HMAC signing method. -/
inductive Alg
  | HS256
  | HS384
  | HS512
  | RS256
  | NoneAlg
  deriving DecidableEq, Repr

/-- The keyfunc's type assertion `token.Method.(*jwt.SigningMethodHMAC)`
succeeds exactly for the HMAC family of methods. -/
def Alg.isHMAC : Alg → Bool
  | .HS256 => true
  | .HS384 => true
  | .HS512 => true
  | .RS256 => false
  | .NoneAlg => false

/-- Claims carried by the session token: `user_id`, `exp`, `iat`
(usecase/user_usecase.go Login; interface/middleware/auth.go JWTClaims). -/
structure JWTClaims where
  user_id : Nat
  exp : Time
  iat : Time
  deriving DecidableEq, Repr

/-- An HMAC-style signature over header algorithm and claims with a secret key,
modelled structurally: two signatures agree iff algorithm, claims and key agree
(no collisions, matching the idealised MAC assumption). -/
structure JWTSignature where
  alg : Alg
  claims : JWTClaims
  key : String
  deriving DecidableEq, Repr

/-- A structurally well-formed serialized JWT. -/
structure SignedToken where
  alg : Alg
  claims : JWTClaims
  sig : JWTSignature
  deriving DecidableEq, Repr

/-- A token string on the wire: either not parseable as a JWT at all, or the
serialization of a signed token. -/
inductive TokenString
  | malformed (raw : String)
  | parsed (t : SignedToken)
  deriving DecidableEq, Repr

/-- `jwt.NewWithClaims(method, claims).SignedString(key)`. -/
def signedString (alg : Alg) (claims : JWTClaims) (key : String) : SignedToken :=
  ⟨alg, claims, ⟨alg, claims, key⟩⟩

/-- The two failure kinds of token verification: a structural / algorithm /
signature failure, and expiry. -/
inductive TokenVerifyError
  | invalid
  | expired
  deriving DecidableEq, Repr

/-- `jwt.ParseWithClaims` with the middleware's keyfunc
(interface/middleware/auth.go): the keyfunc rejects any non-HMAC signing
method (so algorithm "none" and RSA tokens fail), then the signature is
checked against the process secret, then the `exp` claim is validated against
the current time.  On success the embedded `user_id` is returned. -/
def verifyToken (ts : TokenString) (key : String) (now : Time) :
    Except TokenVerifyError Nat :=
  match ts with
  | .malformed _ => .error .invalid
  | .parsed t =>
    if t.alg.isHMAC = false then .error .invalid
    else if t.sig ≠ ⟨t.alg, t.claims, key⟩ then .error .invalid
    else if now > t.claims.exp then .error .expired
    else .ok t.claims.user_id

/-- gorm primary-key assignment on insert: a fresh id, one more than the
largest id present. -/
def nextId (s : List User) : Nat :=
  (s.foldr (fun u m => max u.ID m) 0) + 1

/-- infrastructure/persistence `Create` via gorm over an in-memory record
list: assigns the primary key and appends; the `unique` column tag on `Email`
makes inserting a duplicate email fail with a constraint error. -/
def memCreate (user : User) (s : List User) : Except String (User × List User) :=
  if s.any (fun v => v.Email == user.Email) then
    .error "UNIQUE constraint failed: users.email"
  else
    let created := { user with ID := nextId s }
    .ok (created, s ++ [created])

/-- infrastructure/persistence `FindByID`: `db.First(&user, id)`. -/
def memFindByID (id : Nat) (s : List User) : Except String User :=
  match s.find? (fun u => u.ID == id) with
  | some u => .ok u
  | none => .error gormErrRecordNotFound

/-- infrastructure/persistence `FindByEmail`: `db.Where("email = ?").First`. -/
def memFindByEmail (email : String) (s : List User) : Except String User :=
  match s.find? (fun u => u.Email == email) with
  | some u => .ok u
  | none => .error gormErrRecordNotFound

/-- Modelled from the spec: the repository implementation of
`FindByPasswordResetToken` is not under src/ (only its declaration in
domain/model and its callers are).  Spec §4.3: look up the user by
`resetToken` exact match; not-found otherwise. -/
def memFindByPasswordResetToken (token : String) (s : List User) :
    Except String User :=
  match s.find? (fun u => u.PasswordResetToken == some token) with
  | some u => .ok u
  | none => .error gormErrRecordNotFound

/-- infrastructure/persistence `Update`: gorm `Save`, an update by primary
key; saving a row that matches nothing affects zero rows and reports no
error. -/
def memUpdate (user : User) (s : List User) : Except String (List User) :=
  .ok (s.map (fun v => if v.ID == user.ID then user else v))

/-- infrastructure/persistence `Delete`: gorm `db.Delete(&User{}, id)`, a
`DELETE WHERE id = ?`; gorm reports a nil `Error` even when zero rows are
affected (the not-found case is visible only through `RowsAffected`, which the
repository discards). -/
def memDelete (id : Nat) (s : List User) : Except String (List User) :=
  .ok (s.filter (fun v => v.ID ≠ id))

/-- The gorm-backed repository over the in-memory store. -/
def memRepo : UserRepository (List User) :=
  ⟨memCreate, memFindByID, memFindByEmail, memFindByPasswordResetToken,
   memUpdate, memDelete⟩

/-- The tail of `Register` after the duplicate check: hash the password and
create the user (usecase/user_usecase.go lines 42-63). -/
def registerCreatePath {σ : Type} (repo : UserRepository σ)
    (name email password : String) (s : σ) : Except String User × σ :=
  let hashedPassword := bcryptHash password
  let user : User := ⟨0, name, email, hashedPassword, none, none⟩
  match repo.Create user s with
  | .error e => (.error e, s)
  | .ok (created, s') => (.ok created, s')

/-- usecase `Register`: duplicate-email check (`err == nil && existingUser !=
nil`; any FindByEmail error skips the check), then hash and create. -/
def Register {σ : Type} (repo : UserRepository σ)
    (name email password : String) (s : σ) : Except String User × σ :=
  match repo.FindByEmail email s with
  | .ok _ => (.error "email already exists", s)
  | .error _ => registerCreatePath repo name email password s

/-- usecase `Login`: find by email, bcrypt-compare, then issue an HS256 token
with `user_id`, `exp = now + 24h`, `iat = now`, signed with `JWT_SECRET`.
Both failure branches return the same error value; no store mutation. -/
def Login {σ : Type} (repo : UserRepository σ) (secret : String) (now : Time)
    (email password : String) (s : σ) : Except String TokenString × σ :=
  match repo.FindByEmail email s with
  | .error _ => (.error "invalid email or password", s)
  | .ok user =>
    if compareHashAndPassword user.Password password then
      (.ok (.parsed (signedString .HS256 ⟨user.ID, now + 24 * 3600, now⟩ secret)), s)
    else
      (.error "invalid email or password", s)

/-- usecase `GetByID`: a plain repository lookup. -/
def GetByID {σ : Type} (repo : UserRepository σ) (id : Nat) (s : σ) :
    Except String User × σ :=
  (repo.FindByID id s, s)

/-- usecase `UpdateUser`: find by id, overwrite name and email, persist. -/
def UpdateUser {σ : Type} (repo : UserRepository σ) (id : Nat)
    (name email : String) (s : σ) : Except String User × σ :=
  match repo.FindByID id s with
  | .error e => (.error e, s)
  | .ok user =>
    let user' := { user with Name := name, Email := email }
    match repo.Update user' s with
    | .error e => (.error e, s)
    | .ok s' => (.ok user', s')

/-- usecase `DeleteUser`: forwards to the repository's `Delete` unchanged. -/
def DeleteUser {σ : Type} (repo : UserRepository σ) (id : Nat) (s : σ) :
    Except String Unit × σ :=
  match repo.Delete id s with
  | .error e => (.error e, s)
  | .ok s' => (.ok (), s')

/-- usecase `RequestPasswordReset`: on any FindByEmail failure returns success
with no side effect (anti-enumeration policy); otherwise stores the fresh
random token (the random draw is the explicit `token` parameter) with a
one-hour expiry. -/
def RequestPasswordReset {σ : Type} (repo : UserRepository σ) (now : Time)
    (token : String) (email : String) (s : σ) : Except String Unit × σ :=
  match repo.FindByEmail email s with
  | .error _ => (.ok (), s)
  | .ok user =>
    let expires := now + 3600
    let user' := { user with PasswordResetToken := some token,
                             PasswordResetExpires := some expires }
    match repo.Update user' s with
    | .error e => (.error e, s)
    | .ok s' => (.ok (), s')

/-- usecase `ResetPassword`: look up by reset token; a missing or
strictly-past expiry fails; otherwise hash the new password and, in one
`Update`, store it and clear both reset fields. -/
def ResetPassword {σ : Type} (repo : UserRepository σ) (now : Time)
    (token newPassword : String) (s : σ) : Except String Unit × σ :=
  match repo.FindByPasswordResetToken token s with
  | .error _ => (.error "invalid or expired reset token", s)
  | .ok user =>
    match user.PasswordResetExpires with
    | none => (.error "reset token has expired", s)
    | some expires =>
      if now > expires then (.error "reset token has expired", s)
      else
        let user' := { user with Password := bcryptHash newPassword,
                                 PasswordResetToken := none,
                                 PasswordResetExpires := none }
        match repo.Update user' s with
        | .error e => (.error e, s)
        | .ok s' => (.ok (), s')

/-! ### Helper lemmas -/

/-- The modelled bcrypt hash is injective, so `compareHashAndPassword` succeeds
exactly on the original plaintext. -/
theorem bcryptHash_injective {a b : String} (h : bcryptHash a = bcryptHash b) :
    a = b := by
  have hd := congrArg String.data h
  simp only [bcryptHash, String.data_append] at hd
  have h2 := List.append_cancel_left hd
  cases a; cases b; cases h2; rfl

theorem compareHash_of_eq (password : String) :
    compareHashAndPassword (bcryptHash password) password = true := by
  simp [compareHashAndPassword]

theorem compareHash_of_ne {stored attempt : String} (h : stored ≠ bcryptHash attempt) :
    compareHashAndPassword stored attempt = false := by
  simpa [compareHashAndPassword] using h

/-- A lookup that fails on the front list continues into the back list. -/
theorem find?_append_of_none {α : Type} {p : α → Bool} {l₁ l₂ : List α}
    (h : l₁.find? p = none) : (l₁ ++ l₂).find? p = l₂.find? p := by
  rw [List.find?_append, h, Option.none_or]

/-! ### C5: requestPasswordReset on an absent email -/

/-- C5: for every email not present in the store, `RequestPasswordReset`
returns success and leaves the entire store state unchanged. -/
theorem requestReset_absent_email_noop (now : Time) (tok email : String)
    (s : List User) (h : ∀ u ∈ s, u.Email ≠ email) :
    RequestPasswordReset memRepo now tok email s = (.ok (), s) := by
  have hfind : s.find? (fun u => u.Email == email) = none := by
    rw [List.find?_eq_none]
    intro u hu
    simpa using h u hu
  simp [RequestPasswordReset, memRepo, memFindByEmail, hfind]

theorem requestReset_absent_email_noop_witness :
    (∀ u ∈ ([] : List User), u.Email ≠ "nonexistent@x.com") ∧
      RequestPasswordReset memRepo 0 "tok" "nonexistent@x.com" [] = (.ok (), []) :=
  ⟨by simp, requestReset_absent_email_noop 0 "tok" "nonexistent@x.com" [] (by simp)⟩

/-! ### C6: register with an already-present email -/

/-- C6: whenever a user with the given email is found in the store, `Register`
fails with the email-already-exists error and returns the store unchanged
(its error branch performs no `Create` and no `Update`). -/
theorem register_duplicate_email (name email password : String)
    (s : List User) (u : User) (hfound : memRepo.FindByEmail email s = .ok u) :
    Register memRepo name email password s = (.error "email already exists", s) := by
  simp [Register, hfound]

theorem register_duplicate_email_witness :
    (memRepo.FindByEmail "a@x.com"
        [⟨1, "alice", "a@x.com", bcryptHash "pw", none, none⟩] =
      .ok ⟨1, "alice", "a@x.com", bcryptHash "pw", none, none⟩) ∧
    Register memRepo "bob" "a@x.com" "other"
        [⟨1, "alice", "a@x.com", bcryptHash "pw", none, none⟩] =
      (.error "email already exists",
       [⟨1, "alice", "a@x.com", bcryptHash "pw", none, none⟩]) :=
  ⟨rfl, register_duplicate_email "bob" "a@x.com" "other" _ _ rfl⟩

/-! ### C10: register skips the duplicate check on any FindByEmail error -/

/-- C10: whenever the find-by-email lookup fails with ANY error (not-found or
a store failure), `Register` skips the duplicate check and proceeds to hash
the password and create the user; the result is `registerCreatePath`, which
does not depend on the lookup's error, so a find-by-email error is never
propagated to the caller. -/
theorem register_ignores_findByEmail_error {σ : Type} (repo : UserRepository σ)
    (name email password : String) (s : σ) (e : String)
    (herr : repo.FindByEmail email s = .error e) :
    Register repo name email password s =
      registerCreatePath repo name email password s := by
  simp [Register, herr]

/-- A repository whose email lookup fails with a store error distinct from
not-found. -/
def failingRepo : UserRepository (List User) :=
  { memRepo with FindByEmail := fun _ _ => .error "connection refused" }

theorem register_ignores_findByEmail_error_witness :
    (failingRepo.FindByEmail "a@x.com" [] = .error "connection refused") ∧
    Register failingRepo "alice" "a@x.com" "pw" [] =
      registerCreatePath failingRepo "alice" "a@x.com" "pw" [] :=
  ⟨rfl, register_ignores_findByEmail_error failingRepo "alice" "a@x.com" "pw" []
    "connection refused" rfl⟩

/-! ### C9: delete of an absent id -/

/-- C9 counterexample: deleting an id with no user record reports success
(the gorm-backed `Delete` returns no error when zero rows are affected),
refuting the claim that `deleteAccount` fails with NotFound there. -/
theorem deleteUser_absent_id_reports_success :
    DeleteUser memRepo 999 [] = (.ok (), []) := rfl

/-- C9 (amended): `DeleteUser` forwards the store's result unchanged, and the
gorm-backed store's delete reports success even when no record matches the
id, so deleting an absent id reports success and leaves the store unchanged. -/
theorem deleteUser_absent_id_noop (id : Nat) (s : List User)
    (habsent : ∀ u ∈ s, u.ID ≠ id) :
    DeleteUser memRepo id s = (.ok (), s) := by
  have hfilter : s.filter (fun v => v.ID ≠ id) = s := by
    rw [List.filter_eq_self]
    intro u hu
    simpa using habsent u hu
  simp only [DeleteUser, memRepo, memDelete, hfilter]

theorem deleteUser_absent_id_noop_witness :
    (∀ u ∈ [(⟨1, "alice", "a@x.com", bcryptHash "pw", none, none⟩ : User)],
      u.ID ≠ 999) ∧
    DeleteUser memRepo 999 [⟨1, "alice", "a@x.com", bcryptHash "pw", none, none⟩] =
      (.ok (), [⟨1, "alice", "a@x.com", bcryptHash "pw", none, none⟩]) :=
  ⟨by simp, deleteUser_absent_id_noop 999 _ (by simp)⟩

/-! ### C8: confirmReset with a matching but expired token -/

/-- A stored user whose reset token expired at time 100. -/
def expiredTokenUser : User :=
  ⟨1, "bob", "b@x.com", bcryptHash "old", some "tok123", some 100⟩

/-- C8 counterexample: at time 200 a matching token that expired at time 100
fails with the expired error, but the store is returned UNCHANGED: the reset
token is still present, refuting "the token is still cleared in this path". -/
theorem resetPassword_expired_does_not_clear :
    ResetPassword memRepo 200 "tok123" "new" [expiredTokenUser] =
      (.error "reset token has expired", [expiredTokenUser]) ∧
    expiredTokenUser.PasswordResetToken = some "tok123" :=
  ⟨rfl, rfl⟩

/-- C8 (amended): when the stored reset token matches but its expiry is
strictly in the past, `ResetPassword` fails with the expired error and
performs no store mutation: the token is cleared only on the success path. -/
theorem resetPassword_expired_rejects (now : Time) (token newPassword : String)
    (s : List User) (u : User) (expires : Time)
    (hfind : memRepo.FindByPasswordResetToken token s = .ok u)
    (hexp : u.PasswordResetExpires = some expires)
    (hpast : now > expires) :
    ResetPassword memRepo now token newPassword s =
      (.error "reset token has expired", s) := by
  simp [ResetPassword, hfind, hexp, hpast]

theorem resetPassword_expired_rejects_witness :
    (memRepo.FindByPasswordResetToken "tok123" [expiredTokenUser] =
      .ok expiredTokenUser) ∧
    expiredTokenUser.PasswordResetExpires = some 100 ∧
    ((200 : Time) > 100) ∧
    ResetPassword memRepo 200 "tok123" "new2" [expiredTokenUser] =
      (.error "reset token has expired", [expiredTokenUser]) :=
  ⟨rfl, rfl, by decide,
    resetPassword_expired_rejects 200 "tok123" "new2" [expiredTokenUser]
      expiredTokenUser 100 rfl rfl (by decide)⟩

/-! ### C4: login failures are indistinguishable -/

/-- C4: a login against a present email with a wrong password and a login
against an absent email fail with the SAME invalid-credentials error value,
with no store mutation in either case; the two outcomes are equal, hence
indistinguishable to the caller. -/
theorem login_failures_indistinguishable (secret : String) (now now₂ : Time)
    (e₁ e₂ pw pw₁ pw₂ : String) (s : List User) (u : User)
    (hfound : memRepo.FindByEmail e₁ s = .ok u)
    (hpw : u.Password = bcryptHash pw)
    (hwrong : pw₁ ≠ pw)
    (habsent : ∀ v ∈ s, v.Email ≠ e₂) :
    Login memRepo secret now e₁ pw₁ s = (.error "invalid email or password", s) ∧
    Login memRepo secret now₂ e₂ pw₂ s = (.error "invalid email or password", s) ∧
    Login memRepo secret now e₁ pw₁ s = Login memRepo secret now₂ e₂ pw₂ s := by
  have hcmp : compareHashAndPassword u.Password pw₁ = false := by
    apply compareHash_of_ne
    rw [hpw]
    intro hc
    exact hwrong (bcryptHash_injective hc).symm
  have hnone : s.find? (fun v => v.Email == e₂) = none := by
    rw [List.find?_eq_none]
    intro v hv
    simpa using habsent v hv
  have h1 : Login memRepo secret now e₁ pw₁ s =
      (.error "invalid email or password", s) := by
    simp [Login, hfound, hcmp]
  have h2 : Login memRepo secret now₂ e₂ pw₂ s =
      (.error "invalid email or password", s) := by
    simp [Login, memRepo, memFindByEmail, hnone]
  exact ⟨h1, h2, h1.trans h2.symm⟩

theorem login_failures_indistinguishable_witness :
    (memRepo.FindByEmail "a@x.com"
        [⟨1, "alice", "a@x.com", bcryptHash "pw", none, none⟩] =
      .ok ⟨1, "alice", "a@x.com", bcryptHash "pw", none, none⟩) ∧
    (User.Password ⟨1, "alice", "a@x.com", bcryptHash "pw", none, none⟩ =
      bcryptHash "pw") ∧
    ("wrong" ≠ "pw") ∧
    (∀ v ∈ [(⟨1, "alice", "a@x.com", bcryptHash "pw", none, none⟩ : User)],
      v.Email ≠ "ghost@x.com") ∧
    (Login memRepo "sec" 0 "a@x.com" "wrong"
        [⟨1, "alice", "a@x.com", bcryptHash "pw", none, none⟩] =
      (.error "invalid email or password",
       [⟨1, "alice", "a@x.com", bcryptHash "pw", none, none⟩]) ∧
     Login memRepo "sec" 5 "ghost@x.com" "any"
        [⟨1, "alice", "a@x.com", bcryptHash "pw", none, none⟩] =
      (.error "invalid email or password",
       [⟨1, "alice", "a@x.com", bcryptHash "pw", none, none⟩]) ∧
     Login memRepo "sec" 0 "a@x.com" "wrong"
        [⟨1, "alice", "a@x.com", bcryptHash "pw", none, none⟩] =
      Login memRepo "sec" 5 "ghost@x.com" "any"
        [⟨1, "alice", "a@x.com", bcryptHash "pw", none, none⟩]) :=
  ⟨rfl, rfl, by decide, by simp,
    login_failures_indistinguishable "sec" 0 5 "a@x.com" "ghost@x.com"
      "pw" "wrong" "any" _ _ rfl rfl (by decide) (by simp)⟩

/-! ### C1: register then login round trip -/

/-- C1: with an email not yet present in the store, `Register` succeeds and
creates the user with a fresh id; `Login` with the same credentials on the
resulting store succeeds and returns a signed session token; verifying that
token with the same secret within its 24-hour window recovers exactly the
created user's id. -/
theorem register_then_login_roundtrip (name email password secret : String)
    (s : List User) (now now' : Time)
    (hfresh : ∀ u ∈ s, u.Email ≠ email)
    (hwindow : now' ≤ now + 24 * 3600) :
    Register memRepo name email password s =
      (.ok ⟨nextId s, name, email, bcryptHash password, none, none⟩,
       s ++ [⟨nextId s, name, email, bcryptHash password, none, none⟩]) ∧
    Login memRepo secret now email password
        (s ++ [⟨nextId s, name, email, bcryptHash password, none, none⟩]) =
      (.ok (.parsed (signedString .HS256 ⟨nextId s, now + 24 * 3600, now⟩ secret)),
       s ++ [⟨nextId s, name, email, bcryptHash password, none, none⟩]) ∧
    verifyToken
        (.parsed (signedString .HS256 ⟨nextId s, now + 24 * 3600, now⟩ secret))
        secret now' = .ok (nextId s) := by
  have hfind : s.find? (fun u => u.Email == email) = none := by
    rw [List.find?_eq_none]
    intro u hu
    simpa using hfresh u hu
  have hany : s.any (fun v => v.Email == email) = false := by
    rw [List.any_eq_false]
    intro v hv
    simpa using hfresh v hv
  refine ⟨?_, ?_, ?_⟩
  · simp [Register, memRepo, memFindByEmail, hfind, registerCreatePath,
      memCreate, hany]
  · have hfind2 : (s ++ [(⟨nextId s, name, email, bcryptHash password, none,
        none⟩ : User)]).find? (fun u => u.Email == email) =
        some ⟨nextId s, name, email, bcryptHash password, none, none⟩ := by
      rw [find?_append_of_none hfind]
      simp [List.find?]
    simp [Login, memRepo, memFindByEmail, hfind2, compareHash_of_eq]
  · have hnotexp : ¬ (now' > now + 24 * 3600) := not_lt.mpr hwindow
    simp [verifyToken, signedString, Alg.isHMAC, hnotexp]
    linarith

theorem register_then_login_roundtrip_witness :
    (∀ u ∈ ([] : List User), u.Email ≠ "a@x.com") ∧
    ((100 : Time) ≤ 0 + 24 * 3600) ∧
    (Register memRepo "alice" "a@x.com" "pw" [] =
      (.ok ⟨nextId [], "alice", "a@x.com", bcryptHash "pw", none, none⟩,
       [] ++ [⟨nextId [], "alice", "a@x.com", bcryptHash "pw", none, none⟩]) ∧
     Login memRepo "sec" 0 "a@x.com" "pw"
        ([] ++ [⟨nextId [], "alice", "a@x.com", bcryptHash "pw", none, none⟩]) =
      (.ok (.parsed (signedString .HS256 ⟨nextId [], 0 + 24 * 3600, 0⟩ "sec")),
       [] ++ [⟨nextId [], "alice", "a@x.com", bcryptHash "pw", none, none⟩]) ∧
     verifyToken (.parsed (signedString .HS256 ⟨nextId [], 0 + 24 * 3600, 0⟩ "sec"))
        "sec" 100 = .ok (nextId [])) :=
  ⟨by simp, by decide,
    register_then_login_roundtrip "alice" "a@x.com" "pw" "sec" [] 0 100
      (by simp) (by decide)⟩

/-! ### C3: confirmReset success path is a single atomic write and single-use -/

/-- The record written back by a successful `ResetPassword`: the new password
hash is stored and both reset fields are cleared in the same record. -/
def consumeReset (u : User) (newPassword : String) : User :=
  { u with Password := bcryptHash newPassword,
           PasswordResetToken := none,
           PasswordResetExpires := none }

/-- The store after the one `Update` call of a successful `ResetPassword`. -/
def consumeResetStore (s : List User) (u : User) (newPassword : String) :
    List User :=
  s.map (fun v => if v.ID == u.ID then consumeReset u newPassword else v)

/-- C3: when the stored reset token matches and its expiry has not passed,
`ResetPassword` succeeds and its whole effect is the single `Update` of the
matched user, which stores the hash of the new password and clears both reset
fields in that same write; a second `ResetPassword` with the same token on the
resulting store fails with the invalid-token error and changes nothing, so the
token is single-use.  The uniqueness hypothesis reflects the store's `unique`
constraint on the reset-token column. -/
theorem resetPassword_success_single_use (now now₂ : Time)
    (token newPassword newPassword₂ : String) (s : List User) (u : User)
    (expires : Time)
    (hfind : memRepo.FindByPasswordResetToken token s = .ok u)
    (hexp : u.PasswordResetExpires = some expires)
    (hvalid : ¬ now > expires)
    (huniq : ∀ v ∈ s, v.PasswordResetToken = some token → v = u) :
    ResetPassword memRepo now token newPassword s =
      (.ok (), consumeResetStore s u newPassword) ∧
    ResetPassword memRepo now₂ token newPassword₂
        (consumeResetStore s u newPassword) =
      (.error "invalid or expired reset token",
       consumeResetStore s u newPassword) := by
  have hfind' : memFindByPasswordResetToken token s = .ok u := hfind
  constructor
  · simp [ResetPassword, memRepo, hfind', hexp, hvalid, memUpdate,
      consumeResetStore, consumeReset]
  · have hnone : (consumeResetStore s u newPassword).find?
        (fun v => v.PasswordResetToken == some token) = none := by
      rw [List.find?_eq_none]
      intro x hx
      rw [consumeResetStore, List.mem_map] at hx
      obtain ⟨w, hw, rfl⟩ := hx
      by_cases hid : (w.ID == u.ID) = true
      · simp [hid, consumeReset]
      · simp only [hid, Bool.false_eq_true, if_false]
        intro hcontra
        have hwu := huniq w hw (by simpa using hcontra)
        subst hwu
        simp at hid
    have hfind₂ : memFindByPasswordResetToken token
        (consumeResetStore s u newPassword) = .error gormErrRecordNotFound := by
      rw [memFindByPasswordResetToken, hnone]
    simp [ResetPassword, memRepo, hfind₂]

/-- A stored user with an outstanding, unexpired reset request. -/
def pendingResetUser : User :=
  ⟨1, "carol", "c@x.com", bcryptHash "old", some "tokX", some 1000⟩

theorem resetPassword_success_single_use_witness :
    (memRepo.FindByPasswordResetToken "tokX" [pendingResetUser] =
      .ok pendingResetUser) ∧
    pendingResetUser.PasswordResetExpires = some 1000 ∧
    (¬ (500 : Time) > 1000) ∧
    (∀ v ∈ [pendingResetUser], v.PasswordResetToken = some "tokX" →
      v = pendingResetUser) ∧
    (ResetPassword memRepo 500 "tokX" "newpw" [pendingResetUser] =
      (.ok (), consumeResetStore [pendingResetUser] pendingResetUser "newpw") ∧
     ResetPassword memRepo 600 "tokX" "newpw2"
        (consumeResetStore [pendingResetUser] pendingResetUser "newpw") =
      (.error "invalid or expired reset token",
       consumeResetStore [pendingResetUser] pendingResetUser "newpw")) :=
  ⟨rfl, rfl, by decide, by simp,
    resetPassword_success_single_use 500 600 "tokX" "newpw" "newpw2"
      [pendingResetUser] pendingResetUser 1000 rfl rfl (by decide) (by simp)⟩

/-! ### C7: the reset-token pairing invariant is preserved by every operation -/

/-- Spec §3 invariant on one user: `resetToken` and `resetTokenExpiresAt` are
both present or both absent. -/
def resetPairInv (u : User) : Prop :=
  u.PasswordResetToken.isSome = u.PasswordResetExpires.isSome

/-- Every stored user satisfies `resetPairInv`. -/
def StoreInv (s : List User) : Prop := ∀ u ∈ s, resetPairInv u

theorem storeInv_replace {s : List User} (hs : StoreInv s) {w : User}
    (hw : resetPairInv w) (c : User → Bool) :
    StoreInv (s.map (fun v => if c v then w else v)) := by
  intro x hx
  rw [List.mem_map] at hx
  obtain ⟨v, hv, rfl⟩ := hx
  by_cases h : c v = true
  · simpa [h] using hw
  · simpa [h] using hs v hv

theorem storeInv_append_one {s : List User} (hs : StoreInv s) {w : User}
    (hw : resetPairInv w) : StoreInv (s ++ [w]) := by
  intro x hx
  rcases List.mem_append.mp hx with h | h
  · exact hs x h
  · rw [List.mem_singleton] at h
    subst h
    exact hw

/-- `Login` never mutates the store. -/
theorem Login_snd {σ : Type} (repo : UserRepository σ) (secret : String)
    (now : Time) (email password : String) (s : σ) :
    (Login repo secret now email password s).2 = s := by
  cases h : repo.FindByEmail email s with
  | error e => simp [Login, h]
  | ok u =>
    by_cases hc : compareHashAndPassword u.Password password = true <;>
      simp [Login, h, hc]

/-- C7: each operation of the auth service — register, login, updateProfile,
deleteAccount, requestReset and confirmReset — preserves the invariant that
for every stored user the reset token and its expiry are both present or both
absent. -/
theorem authService_preserves_resetPairInv
    (name email password secret tok newPassword email₂ email₃ : String)
    (id id₂ : Nat) (now now₂ now₃ : Time) (s : List User)
    (hs : StoreInv s) :
    StoreInv (Register memRepo name email password s).2 ∧
    StoreInv (Login memRepo secret now email password s).2 ∧
    StoreInv (UpdateUser memRepo id name email₂ s).2 ∧
    StoreInv (DeleteUser memRepo id₂ s).2 ∧
    StoreInv (RequestPasswordReset memRepo now₂ tok email₃ s).2 ∧
    StoreInv (ResetPassword memRepo now₃ tok newPassword s).2 := by
  refine ⟨?_, ?_, ?_, ?_, ?_, ?_⟩
  · cases hf : memFindByEmail email s with
    | ok u =>
      have h2 : (Register memRepo name email password s).2 = s := by
        simp [Register, memRepo, hf]
      rw [h2]; exact hs
    | error e =>
      by_cases ha : (s.any (fun v => v.Email == email)) = true
      · have h2 : (Register memRepo name email password s).2 = s := by
          simp [Register, memRepo, hf, registerCreatePath, memCreate, ha]
        rw [h2]; exact hs
      · have h2 : (Register memRepo name email password s).2 =
            s ++ [⟨nextId s, name, email, bcryptHash password, none, none⟩] := by
          simp [Register, memRepo, hf, registerCreatePath, memCreate, ha]
        rw [h2]
        exact storeInv_append_one hs rfl
  · rw [Login_snd]; exact hs
  · cases hf : s.find? (fun v => v.ID == id) with
    | none =>
      have h2 : (UpdateUser memRepo id name email₂ s).2 = s := by
        simp [UpdateUser, memRepo, memFindByID, hf]
      rw [h2]; exact hs
    | some u =>
      have hu : resetPairInv u := hs u (List.mem_of_find?_eq_some hf)
      have h2 : (UpdateUser memRepo id name email₂ s).2 =
          s.map (fun v => if v.ID == u.ID then
            { u with Name := name, Email := email₂ } else v) := by
        simp [UpdateUser, memRepo, memFindByID, hf, memUpdate]
      rw [h2]
      exact storeInv_replace hs
        (w := { u with Name := name, Email := email₂ }) hu _
  · have h2 : (DeleteUser memRepo id₂ s).2 = s.filter (fun v => v.ID ≠ id₂) := by
      simp [DeleteUser, memRepo, memDelete]
    rw [h2]
    intro x hx
    exact hs x (List.mem_filter.mp hx).1
  · cases hf : s.find? (fun v => v.Email == email₃) with
    | none =>
      have h2 : (RequestPasswordReset memRepo now₂ tok email₃ s).2 = s := by
        simp [RequestPasswordReset, memRepo, memFindByEmail, hf]
      rw [h2]; exact hs
    | some u =>
      have h2 : (RequestPasswordReset memRepo now₂ tok email₃ s).2 =
          s.map (fun v => if v.ID == u.ID then
            { u with PasswordResetToken := some tok,
                     PasswordResetExpires := some (now₂ + 3600) } else v) := by
        simp [RequestPasswordReset, memRepo, memFindByEmail, hf, memUpdate]
      rw [h2]
      exact storeInv_replace hs
        (w := { u with PasswordResetToken := some tok,
                       PasswordResetExpires := some (now₂ + 3600) }) (by rfl) _
  · cases hf : s.find? (fun v => v.PasswordResetToken == some tok) with
    | none =>
      have h2 : (ResetPassword memRepo now₃ tok newPassword s).2 = s := by
        simp [ResetPassword, memRepo, memFindByPasswordResetToken, hf]
      rw [h2]; exact hs
    | some u =>
      cases he : u.PasswordResetExpires with
      | none =>
        have h2 : (ResetPassword memRepo now₃ tok newPassword s).2 = s := by
          simp [ResetPassword, memRepo, memFindByPasswordResetToken, hf, he]
        rw [h2]; exact hs
      | some exp =>
        by_cases hn : now₃ > exp
        · have h2 : (ResetPassword memRepo now₃ tok newPassword s).2 = s := by
            simp [ResetPassword, memRepo, memFindByPasswordResetToken, hf, he, hn]
          rw [h2]; exact hs
        · have h2 : (ResetPassword memRepo now₃ tok newPassword s).2 =
              s.map (fun v => if v.ID == u.ID then
                consumeReset u newPassword else v) := by
            simp [ResetPassword, memRepo, memFindByPasswordResetToken, hf, he,
              hn, memUpdate, consumeReset]
          rw [h2]
          exact storeInv_replace hs
            (w := consumeReset u newPassword) (by rfl) _

theorem authService_preserves_resetPairInv_witness :
    StoreInv [] ∧
    (StoreInv (Register memRepo "n" "e@x" "p" []).2 ∧
     StoreInv (Login memRepo "sec" 0 "e@x" "p" []).2 ∧
     StoreInv (UpdateUser memRepo 1 "n" "e2@x" []).2 ∧
     StoreInv (DeleteUser memRepo 2 []).2 ∧
     StoreInv (RequestPasswordReset memRepo 10 "t" "e3@x" []).2 ∧
     StoreInv (ResetPassword memRepo 20 "t" "np" []).2) :=
  ⟨by simp [StoreInv],
    authService_preserves_resetPairInv "n" "e@x" "p" "sec" "t" "np" "e2@x"
      "e3@x" 1 2 0 10 20 [] (by simp [StoreInv])⟩

/-! ### C2: token verification failure kinds -/

/-- C2 counterexample: a token signed with HS384 and the correct secret is
ACCEPTED by the verifier, although HS384 is not the algorithm `Login` signs
with (HS256).  The keyfunc only checks membership in the HMAC family, so the
claim "fails with TokenInvalid when the signing algorithm is not the pinned
one" is false at this input. -/
theorem verifyToken_accepts_hs384 :
    verifyToken (.parsed (signedString .HS384 ⟨7, 1000, 0⟩ "secret"))
        "secret" 500 = .ok 7 ∧
    Alg.HS384 ≠ Alg.HS256 :=
  ⟨rfl, by decide⟩

/-- C2 (amended): verification fails with the `invalid` kind exactly when the
token is malformed, its signing algorithm is outside the pinned HMAC family
(in particular algorithm "none" is rejected, last conjunct), or its signature
does not match the secret; it fails with the distinct `expired` kind exactly
when it is a well-formed HMAC token with a matching signature whose `exp` is
strictly before the current time; otherwise it succeeds and returns exactly
the embedded `user_id`. -/
theorem verifyToken_kinds (ts : TokenString) (key : String) (now : Time) :
    (verifyToken ts key now = .error .invalid ↔
      ((∃ raw, ts = .malformed raw) ∨
       (∃ t, ts = .parsed t ∧
         (t.alg.isHMAC = false ∨ t.sig ≠ ⟨t.alg, t.claims, key⟩)))) ∧
    (verifyToken ts key now = .error .expired ↔
      (∃ t, ts = .parsed t ∧ t.alg.isHMAC = true ∧
        t.sig = ⟨t.alg, t.claims, key⟩ ∧ now > t.claims.exp)) ∧
    (∀ uid, verifyToken ts key now = .ok uid ↔
      (∃ t, ts = .parsed t ∧ t.alg.isHMAC = true ∧
        t.sig = ⟨t.alg, t.claims, key⟩ ∧ ¬ now > t.claims.exp ∧
        t.claims.user_id = uid)) ∧
    (∀ t, ts = .parsed t → t.alg = .NoneAlg →
      verifyToken ts key now = .error .invalid) := by
  cases ts with
  | malformed raw => simp [verifyToken]
  | parsed t =>
    by_cases h1 : t.alg.isHMAC = false
    · have hv : verifyToken (.parsed t) key now = .error .invalid := by
        simp [verifyToken, h1]
      simp [hv, h1]
    · have h1' : t.alg.isHMAC = true := by
        simpa using h1
      by_cases h2 : t.sig = ⟨t.alg, t.claims, key⟩
      · by_cases h3 : now > t.claims.exp
        · have hv : verifyToken (.parsed t) key now = .error .expired := by
            simp [verifyToken, h1, h2, h3]
          have hnone : t.alg ≠ .NoneAlg := by
            intro hc
            rw [hc] at h1'
            simp [Alg.isHMAC] at h1'
          simp [hv, h1', h2, h3, hnone]
        · have hv : verifyToken (.parsed t) key now = .ok t.claims.user_id := by
            simp [verifyToken, h1, h2, h3]
          have hnone : t.alg ≠ .NoneAlg := by
            intro hc
            rw [hc] at h1'
            simp [Alg.isHMAC] at h1'
          simp [hv, h1', h2, h3, hnone]
          exact not_lt.mp h3
      · have hv : verifyToken (.parsed t) key now = .error .invalid := by
          simp [verifyToken, h1, h2]
        simp [hv, h1', h2]

end VoiceLink
